import Mathlib

/-!
Shallow embedding of the setup-file codec of `packages/setup-parser`
(`src/parser.ts`, `src/types.ts`, `src/car-mappings/*.ts`).

JavaScript numbers are modelled as rationals (`ℚ`) with an explicit `nan`
value where the code can produce `NaN`; raw scalar values coming out of the
INI layer are `RVal` (string / number / boolean / null, matching the
`SetupFile` section value type), while values stored into the structured
record by the dynamic mapping engine are `JVal` (the same plus `NaN` and
`undefined`, which the untyped `Record<string, any>` traversal can produce).
The structured record manipulated through dotted paths is modelled as the
JSON-like tree `JObj`; TypeScript is compiled to strict-mode modules, so
assigning a property on a primitive (a non-container) throws a `TypeError`,
modelled by `Except PathErr`.
-/

/-- Raw scalar values of a parsed section (`string | number | boolean`, plus
`null` which the ini layer can produce). -/
inductive RVal where
  | str (s : String)
  | num (q : ℚ)
  | boolV (b : Bool)
  | nullV
deriving DecidableEq

/-- Dynamic JavaScript values as stored into the structured record by the
untyped mapping engine: raw scalars plus `NaN` and `undefined`. -/
inductive JVal where
  | str (s : String)
  | num (q : ℚ)
  | boolV (b : Bool)
  | nullV
  | nan
  | undef
deriving DecidableEq

/-- Injection of raw scalars into dynamic values. -/
def RVal.toJ : RVal → JVal
  | .str s => .str s
  | .num q => .num q
  | .boolV b => .boolV b
  | .nullV => .nullV

/-- JavaScript truthiness of a raw scalar (`0`, `""`, `false`, `null` are
falsy). -/
def truthyR : RVal → Bool
  | .str s => decide (s ≠ "")
  | .num q => decide (q ≠ 0)
  | .boolV b => b
  | .nullV => false

/-- JavaScript truthiness of a dynamic value (`NaN` and `undefined` are also
falsy). -/
def truthyJ : JVal → Bool
  | .str s => decide (s ≠ "")
  | .num q => decide (q ≠ 0)
  | .boolV b => b
  | .nullV => false
  | .nan => false
  | .undef => false

/-- `a || b` on a possibly-absent raw scalar, as used by the generic mapper:
a falsy left operand falls through to the right one. -/
def orRaw (a b : Option RVal) : Option RVal :=
  match a with
  | some v => if truthyR v then some v else b
  | none => b

/-! ### Locale-independent numeric string parsing

Models of the JavaScript `parseFloat` and `Number` conversions, restricted to
plain decimal literals `[sign] digits [. digits]` (exponents, hex and
`Infinity` forms do not occur in setup files and are outside the model).
`none` stands for `NaN`. -/

/-- Whitespace characters skipped by the numeric conversions. -/
def isWs (c : Char) : Bool :=
  c = ' ' || c = '\t' || c = '\n' || c = '\r'

/-- Value of a decimal digit character. -/
def digitVal (c : Char) : ℕ := c.toNat - '0'.toNat

/-- Natural number denoted by a list of decimal digits. -/
def natOfDigits (ds : List Char) : ℕ :=
  ds.foldl (fun a c => a * 10 + digitVal c) 0

/-- Rational denoted by a sign, integer digits and fraction digits. -/
def decOfParts (sign : Bool) (intDs fracDs : List Char) : ℚ :=
  let mag : ℚ := (natOfDigits intDs : ℚ) + (natOfDigits fracDs : ℚ) / ((10 : ℚ) ^ fracDs.length)
  if sign then -mag else mag

/-- Split an optional leading sign off a character list. -/
def splitSign : List Char → Bool × List Char
  | '-' :: r => (true, r)
  | '+' :: r => (false, r)
  | r => (false, r)

/-- Model of `parseFloat` on the characters of a string: skip leading
whitespace, optional sign, then the longest prefix of digits with at most one
decimal point; `none` (`NaN`) when no digit is consumed. -/
def jsParseFloatCore (cs : List Char) : Option ℚ :=
  let cs1 := cs.dropWhile isWs
  let sc := splitSign cs1
  let intDs := sc.2.takeWhile Char.isDigit
  let rest := sc.2.dropWhile Char.isDigit
  match rest with
  | '.' :: r =>
      let fracDs := r.takeWhile Char.isDigit
      if intDs = [] ∧ fracDs = [] then none else some (decOfParts sc.1 intDs fracDs)
  | _ => if intDs = [] then none else some (decOfParts sc.1 intDs [])

/-- Model of JavaScript `parseFloat` on a string. -/
def jsParseFloat (s : String) : Option ℚ := jsParseFloatCore s.data

/-- Model of `Number(string)`: trim whitespace; the empty string converts to
`0`; otherwise the whole remaining string must be a decimal literal. -/
def jsNumberCore (cs : List Char) : Option ℚ :=
  let t := ((cs.dropWhile isWs).reverse.dropWhile isWs).reverse
  match t with
  | [] => some 0
  | _ :: _ =>
      let sc := splitSign t
      let intDs := sc.2.takeWhile Char.isDigit
      let rest := sc.2.dropWhile Char.isDigit
      match rest with
      | [] => if intDs = [] then none else some (decOfParts sc.1 intDs [])
      | '.' :: r =>
          let fracDs := r.takeWhile Char.isDigit
          if r.dropWhile Char.isDigit = [] ∧ ¬(intDs = [] ∧ fracDs = []) then
            some (decOfParts sc.1 intDs fracDs)
          else none
      | _ :: _ => none

/-- Model of JavaScript `Number` applied to a string. -/
def jsNumber (s : String) : Option ℚ := jsNumberCore s.data

/-- JavaScript `ToNumber` coercion of a dynamic value (`none` is `NaN`);
string conversion follows `Number`, booleans convert to `0`/`1`, `null` to
`0`, `undefined` to `NaN`. -/
def toNumberV : JVal → Option ℚ
  | .num q => some q
  | .str s => jsNumber s
  | .boolV b => some (if b then 1 else 0)
  | .nullV => some 0
  | .nan => none
  | .undef => none

/-- `parseFloat` applied to a dynamic value: numbers pass through, strings
are parsed, everything else stringifies to a non-numeric form (`NaN`). -/
def parseFloatV : JVal → Option ℚ
  | .num q => some q
  | .str s => jsParseFloat s
  | _ => none

/-! ### Character-list string utilities

The JavaScript string operations used by the source (`split`, `trim`,
prefix/suffix tests) are modelled structurally over the character list of a
string, so that every definition evaluates inside the kernel. -/

/-- Trim leading and trailing whitespace from a character list. -/
def trimChars (cs : List Char) : List Char :=
  ((cs.dropWhile isWs).reverse.dropWhile isWs).reverse

/-- Trimmed string. -/
def strTrim (s : String) : String := String.mk (trimChars s.data)

/-- Split a character list on every occurrence of a separator character
(JavaScript `split`: `"a..b"` gives `["a", "", "b"]`, the empty list gives
`[[]]`). -/
def splitOnCharAux (c : Char) : List Char → List Char → List (List Char)
  | [], acc => [acc.reverse]
  | x :: xs, acc =>
      if x = c then acc.reverse :: splitOnCharAux c xs []
      else splitOnCharAux c xs (x :: acc)

/-- Split on a separator character. -/
def splitOnChar (c : Char) (cs : List Char) : List (List Char) :=
  splitOnCharAux c cs []

/-- JavaScript `path.split('.')` on a dotted path string. -/
def pathParts (s : String) : List String :=
  (splitOnChar '.' s.data).map String.mk

/-- Split a character list at its first `=`, when there is one. -/
def splitFirstEq : List Char → Option (List Char × List Char)
  | [] => none
  | x :: xs =>
      if x = '=' then some ([], xs)
      else (splitFirstEq xs).map (fun p => (x :: p.1, p.2))

/-! ### Generic association lists (JavaScript object / `Map` key access)

JavaScript objects preserve string-key insertion order; property read is
first match, property write replaces in place or appends. -/

/-- First-match lookup by key. -/
def lookupKV {α : Type} : List (String × α) → String → Option α
  | [], _ => none
  | (k, v) :: rest, key => if k = key then some v else lookupKV rest key

/-- Replace-in-place-or-append write, as JavaScript property assignment and
`Map.set`. -/
def setKV {α : Type} : List (String × α) → String → α → List (String × α)
  | [], key, v => [(key, v)]
  | (k, w) :: rest, key, v =>
      if k = key then (k, v) :: rest else (k, w) :: setKV rest key v

theorem lookupKV_setKV_self {α : Type} (l : List (String × α)) (k : String) (v : α) :
    lookupKV (setKV l k v) k = some v := by
  induction l with
  | nil => simp [setKV, lookupKV]
  | cons hd tl ih =>
      by_cases h : hd.1 = k
      · simp [setKV, lookupKV, h]
      · simp [setKV, lookupKV, h, ih]

theorem lookupKV_setKV_ne {α : Type} (l : List (String × α)) (k k' : String) (v : α)
    (h : k' ≠ k) : lookupKV (setKV l k v) k' = lookupKV l k' := by
  induction l with
  | nil => simp [setKV, lookupKV, Ne.symm h]
  | cons hd tl ih =>
      by_cases hh : hd.1 = k
      · subst hh
        simp only [setKV, if_pos rfl, lookupKV]
        rw [if_neg (fun hk => h hk.symm), if_neg (fun hk => h hk.symm)]
      · simp only [setKV, if_neg hh, lookupKV]
        by_cases hk : hd.1 = k'
        · simp [hk]
        · simp [hk, ih]

theorem setKV_keys {α : Type} (l : List (String × α)) (k : String) (v : α)
    (h : lookupKV l k ≠ none) : (setKV l k v).map Prod.fst = l.map Prod.fst := by
  induction l with
  | nil => simp [lookupKV] at h
  | cons hd tl ih =>
      by_cases hh : hd.1 = k
      · simp [setKV, hh]
      · simp only [lookupKV, if_neg hh] at h
        simp [setKV, hh, ih h]

theorem lookupKV_eq_none_iff {α : Type} (l : List (String × α)) (k : String) :
    lookupKV l k = none ↔ k ∉ l.map Prod.fst := by
  induction l with
  | nil => simp [lookupKV]
  | cons hd tl ih =>
      by_cases hh : hd.1 = k
      · simp [lookupKV, hh]
      · simp [lookupKV, hh, ih, Ne.symm hh]

theorem lookupKV_filter {α : Type} (l : List (String × α)) (q : String → Bool)
    (k : String) (hq : q k = true) :
    lookupKV (l.filter (fun p => q p.1)) k = lookupKV l k := by
  induction l with
  | nil => simp
  | cons hd tl ih =>
      by_cases hh : hd.1 = k
      · subst hh
        simp [List.filter, hq, lookupKV]
      · by_cases hkeep : q hd.1
        · simp [List.filter, hkeep, lookupKV, hh, ih]
        · simp only [List.filter, hkeep]
          simp only [lookupKV, if_neg hh] at ih ⊢
          simpa [hkeep] using ih

/-! ### The dynamic object tree and the nested path accessor -/

/-- JSON-like model of the JavaScript objects traversed by
`setNestedProperty` / `getNestedProperty`: a leaf primitive or a container
with insertion-ordered string keys. -/
inductive JObj where
  | leaf (v : JVal)
  | node (fields : List (String × JObj))

/-- Error raised by a strict-mode property store on a non-container
(JavaScript `TypeError`; the spec's `InvalidPathError`). -/
inductive PathErr where
  | typeError
deriving DecidableEq

/-- `getNestedProperty` (`parser.ts` line 420): walk the dotted path,
returning `undefined` (`none`) when a segment is missing or the walk passes
through a primitive. Property reads on primitives are modelled as
`undefined`. -/
def getNested : JObj → List String → Option JObj
  | o, [] => some o
  | JObj.node fs, p :: ps =>
      match lookupKV fs p with
      | none => none
      | some o => getNested o ps
  | JObj.leaf _, _ :: _ => none

/-- `setNestedProperty` (`parser.ts` line 303) on an already-split path:
auto-vivify missing intermediate containers; descending into (and then
storing on) a primitive throws in strict mode. The empty path cannot be
produced by `String.splitOn`. -/
def setNestedParts : JObj → List String → JVal → Except PathErr JObj
  | JObj.node fs, [p], v => Except.ok (JObj.node (setKV fs p (JObj.leaf v)))
  | JObj.node fs, p :: q :: rest, v =>
      (match lookupKV fs p with
       | none =>
          match setNestedParts (JObj.node []) (q :: rest) v with
          | Except.ok sub => Except.ok (JObj.node (setKV fs p sub))
          | Except.error e => Except.error e
       | some (JObj.node g) =>
          match setNestedParts (JObj.node g) (q :: rest) v with
          | Except.ok sub => Except.ok (JObj.node (setKV fs p sub))
          | Except.error e => Except.error e
       | some (JObj.leaf _) => Except.error PathErr.typeError)
  | JObj.node _, [], _ => Except.error PathErr.typeError
  | JObj.leaf _, _, _ => Except.error PathErr.typeError

/-- `setNestedProperty` on a dotted path string. -/
def setNestedProperty (o : JObj) (path : String) (v : JVal) : Except PathErr JObj :=
  setNestedParts o (pathParts path) v

/-- Extract the rational of a numeric leaf, if that is what an access
produced. -/
def leafNumOf : Option JObj → Option ℚ
  | some (JObj.leaf (JVal.num q)) => some q
  | _ => none

/-- Extract the string of a string leaf, if that is what an access
produced. -/
def leafStrOf : Option JObj → Option String
  | some (JObj.leaf (JVal.str s)) => some s
  | _ => none

/-- Top-level property read on the record object. -/
def topGet : JObj → String → Option JObj
  | JObj.leaf _, _ => none
  | JObj.node fs, k => lookupKV fs k

/-! ### The data model (`types.ts`) -/

/-- Header block of a parsed `.sto` file (`SetupFile.header`). -/
structure Header where
  version : RVal
  carIdentifier : RVal
  trackIdentifier : RVal
  name : RVal
  timestamp : RVal
deriving DecidableEq

/-- A parsed `.sto` file: header plus ordered sections of raw key/value
pairs (`SetupFile`). -/
structure SetupFile where
  header : Header
  sections : List (String × List (String × RVal))
deriving DecidableEq

/-- One corner cluster of suspension settings. -/
structure CornerSusp where
  springRate : ℚ
  rideHeight : ℚ
  camber : ℚ
  toe : ℚ
  antiRollBar : ℚ
deriving DecidableEq

/-- Front/rear suspension. -/
structure Susp where
  front : CornerSusp
  rear : CornerSusp
deriving DecidableEq

/-- One axle's damper settings. -/
structure DamperPair where
  bump : ℚ
  rebound : ℚ
deriving DecidableEq

/-- Front/rear dampers. -/
structure Dampers where
  front : DamperPair
  rear : DamperPair
deriving DecidableEq

/-- Four-corner tire pressures. -/
structure Tires where
  frontLeft : ℚ
  frontRight : ℚ
  rearLeft : ℚ
  rearRight : ℚ
deriving DecidableEq

/-- Aerodynamic trim; both fields optional in the type. -/
structure Aero where
  frontWing : Option ℚ
  rearWing : Option ℚ
deriving DecidableEq

/-- Differential block (optional as a whole; named `differential` in the
source record). -/
structure DiffSettings where
  preload : ℚ
  powerRamp : Option ℚ
  coastRamp : Option ℚ
deriving DecidableEq

/-- Setup metadata. -/
structure Metadata where
  created : RVal
  modified : RVal
  author : Option RVal
  version : RVal
deriving DecidableEq

/-- The structured record (`ParsedSetup`). -/
structure ParsedSetup where
  carId : RVal
  trackId : RVal
  name : RVal
  description : Option RVal
  suspension : Susp
  dampers : Dampers
  tirePressures : Tires
  aero : Aero
  differential : Option DiffSettings
  brakeBias : ℚ
  gearRatios : Option (List ℚ)
  additionalSettings : Option (List (String × List (String × RVal)))
  metadata : Option Metadata
deriving DecidableEq

/-- Paired decode/encode value transformation of a dialect
(`CarMappingConfig.valueTransformations` entries). -/
structure TransformPair where
  fromRaw : JVal → JVal
  toRaw : JVal → JVal

/-- A dialect definition (`CarMappingConfig`): section name → (canonical
target field path → raw source key), plus optional per-field transforms. -/
structure CarMappingConfig where
  carId : String
  carName : String
  fieldMappings : List (String × List (String × String))
  valueTransformations : List (String × TransformPair)

/-! ### The concrete value transformations (`car-mappings/*.ts`) -/

/-- `(value) => -parseFloat(value)`: sign-convention flip on decode. -/
def negFromRaw (v : JVal) : JVal :=
  match parseFloatV v with
  | some q => JVal.num (-q)
  | none => JVal.nan

/-- `(value) => -value`: JavaScript unary minus (`ToNumber` then negate). -/
def jneg (v : JVal) : JVal :=
  match toNumberV v with
  | some q => JVal.num (-q)
  | none => JVal.nan

/-- `(value) => parseFloat(value) * 1000`: N/mm to N/m on decode. Exact
rational arithmetic — the idealization of the double multiply; the binary64
behavior of this pair is modelled separately for C4 (`mulFromRawD`). -/
def mulFromRaw (v : JVal) : JVal :=
  match parseFloatV v with
  | some q => JVal.num (q * 1000)
  | none => JVal.nan

/-- `(value) => value / 1000`: N/m back to N/mm on encode. Exact rational
arithmetic — the idealization of the double divide; the binary64 behavior
of this pair is modelled separately for C4 (`div1000D`). -/
def jdiv1000 (v : JVal) : JVal :=
  match toNumberV v with
  | some q => JVal.num (q / 1000)
  | none => JVal.nan

/-- `ferrari488GT3Mapping` (`car-mappings/ferrari-488-gt3.ts`), with field
mappings and transforms in source order. -/
def ferrari488GT3Mapping : CarMappingConfig where
  carId := "ferrari_488_gt3"
  carName := "Ferrari 488 GT3"
  fieldMappings :=
    [("TIRE",
       [("tirePressures.frontLeft", "PRESSURE_LF"),
        ("tirePressures.frontRight", "PRESSURE_RF"),
        ("tirePressures.rearLeft", "PRESSURE_LR"),
        ("tirePressures.rearRight", "PRESSURE_RR")]),
     ("SUSPENSION",
       [("suspension.front.springRate", "SPRING_RATE_LF"),
        ("suspension.front.rideHeight", "RIDE_HEIGHT_LF"),
        ("suspension.front.camber", "CAMBER_LF"),
        ("suspension.front.toe", "TOE_LF"),
        ("suspension.front.antiRollBar", "ARB_FRONT"),
        ("suspension.rear.springRate", "SPRING_RATE_LR"),
        ("suspension.rear.rideHeight", "RIDE_HEIGHT_LR"),
        ("suspension.rear.camber", "CAMBER_LR"),
        ("suspension.rear.toe", "TOE_LR"),
        ("suspension.rear.antiRollBar", "ARB_REAR"),
        ("dampers.front.bump", "BUMP_LF"),
        ("dampers.front.rebound", "REBOUND_LF"),
        ("dampers.rear.bump", "BUMP_LR"),
        ("dampers.rear.rebound", "REBOUND_LR")]),
     ("AERO", [("aero.rearWing", "WING_REAR")]),
     ("BRAKE", [("brakeBias", "BIAS")]),
     ("DIFFERENTIAL",
       [("differential.preload", "PRELOAD"),
        ("differential.powerRamp", "POWER_RAMP"),
        ("differential.coastRamp", "COAST_RAMP")])]
  valueTransformations :=
    [("suspension.front.camber", ⟨negFromRaw, jneg⟩),
     ("suspension.rear.camber", ⟨negFromRaw, jneg⟩)]

/-- `porsche911GT3RMapping` (`car-mappings/porsche-911-gt3r.ts`). -/
def porsche911GT3RMapping : CarMappingConfig where
  carId := "porsche_911_gt3r"
  carName := "Porsche 911 GT3 R"
  fieldMappings :=
    [("TIRE",
       [("tirePressures.frontLeft", "LEFT_FRONT"),
        ("tirePressures.frontRight", "RIGHT_FRONT"),
        ("tirePressures.rearLeft", "LEFT_REAR"),
        ("tirePressures.rearRight", "RIGHT_REAR")]),
     ("SUSPENSION",
       [("suspension.front.springRate", "FRONT_SPRING_RATE"),
        ("suspension.front.rideHeight", "FRONT_RIDE_HEIGHT"),
        ("suspension.front.camber", "FRONT_CAMBER"),
        ("suspension.front.toe", "FRONT_TOE"),
        ("suspension.front.antiRollBar", "FRONT_ARB"),
        ("suspension.rear.springRate", "REAR_SPRING_RATE"),
        ("suspension.rear.rideHeight", "REAR_RIDE_HEIGHT"),
        ("suspension.rear.camber", "REAR_CAMBER"),
        ("suspension.rear.toe", "REAR_TOE"),
        ("suspension.rear.antiRollBar", "REAR_ARB"),
        ("dampers.front.bump", "FRONT_BUMP"),
        ("dampers.front.rebound", "FRONT_REBOUND"),
        ("dampers.rear.bump", "REAR_BUMP"),
        ("dampers.rear.rebound", "REAR_REBOUND")]),
     ("AERO", [("aero.rearWing", "REAR_WING")]),
     ("BRAKE", [("brakeBias", "BRAKE_BIAS")]),
     ("DIFFERENTIAL",
       [("differential.preload", "DIFF_PRELOAD"),
        ("differential.powerRamp", "DIFF_ENTRY"),
        ("differential.coastRamp", "DIFF_EXIT")])]
  valueTransformations :=
    [("suspension.front.springRate", ⟨mulFromRaw, jdiv1000⟩),
     ("suspension.rear.springRate", ⟨mulFromRaw, jdiv1000⟩),
     ("suspension.front.camber", ⟨negFromRaw, jneg⟩),
     ("suspension.rear.camber", ⟨negFromRaw, jneg⟩)]

/-! ### The dialect registry (`SetupParser` constructor /
`registerCarMapping`) -/

/-- The parser's `carMappings: Map<string, CarMappingConfig>`, with
`Map.set` insertion-order semantics. -/
def Registry : Type := List (String × CarMappingConfig)

/-- `registerCarMapping` (`parser.ts` line 26): unconditionally
`Map.set(mapping.carId, mapping)`. -/
def registerCarMapping (reg : Registry) (m : CarMappingConfig) : Registry :=
  setKV reg m.carId m

/-- The `SetupParser` constructor: register each mapping of the array in
order. -/
def newParser (ms : List CarMappingConfig) : Registry :=
  ms.foldl (fun r m => registerCarMapping r m) []

/-- `createDefaultParser` (`index.ts`): the Ferrari and Porsche dialects. -/
def defaultParser : Registry :=
  newParser [ferrari488GT3Mapping, porsche911GT3RMapping]

/-- `this.carMappings.get(carIdentifier)`: only a string identifier can hit
a registered key. -/
def lookupCar (reg : Registry) (id : RVal) : Option CarMappingConfig :=
  match id with
  | RVal.str s => lookupKV reg s
  | _ => none

/-! ### Decode: defaults, generic fallback, dialect mapping
(`parser.ts` `convertToStructured`, `applyGenericMapping`,
`applyCarMapping`, `parseNumber`) -/

/-- `parseNumber` (`parser.ts` line 322): `undefined`/`null` → 0, numbers
pass through, strings via `parseFloat` with `NaN` → 0, anything else → 0. -/
def parseNumber : Option RVal → ℚ
  | none => 0
  | some RVal.nullV => 0
  | some (RVal.num q) => q
  | some (RVal.str s) => (jsParseFloat s).getD 0
  | some (RVal.boolV _) => 0

/-- Section lookup `rawSetup.sections[name]`. -/
def secGet (raw : SetupFile) (name : String) : Option (List (String × RVal)) :=
  lookupKV raw.sections name

/-- The default-initialized structured record built at the top of
`convertToStructured` (`parser.ts` line 100). -/
def initialSetup (h : Header) (now : String) : ParsedSetup where
  carId := h.carIdentifier
  trackId := h.trackIdentifier
  name := h.name
  description := none
  suspension := ⟨⟨0, 0, 0, 0, 0⟩, ⟨0, 0, 0, 0, 0⟩⟩
  dampers := ⟨⟨0, 0⟩, ⟨0, 0⟩⟩
  tirePressures := ⟨0, 0, 0, 0⟩
  aero := ⟨none, none⟩
  differential := none
  brakeBias := 50
  gearRatios := none
  additionalSettings := none
  metadata :=
    some { created := if truthyR h.timestamp then h.timestamp else RVal.str now
           modified := if truthyR h.timestamp then h.timestamp else RVal.str now
           author := none
           version := h.version }

/-- Gear-ratio collection of `applyGenericMapping`: probe `GEAR_1` … `GEAR_8`
and push `parseNumber` of every present key (absent indices are skipped, the
loop does not stop at a hole). -/
def gearList (g : List (String × RVal)) : List ℚ :=
  (List.range 8).filterMap
    (fun i => (lookupKV g ("GEAR_" ++ toString (i + 1))).map (fun v => parseNumber (some v)))

/-- Section names consumed by the generic mapper (skipped when building
`additionalSettings`). -/
def genericSectionNames : List String :=
  ["TIRE", "SUSPENSION", "DAMPER", "AERO", "BRAKE", "DIFFERENTIAL", "GEARS"]

/-- `applyGenericMapping` (`parser.ts` line 205): the fixed
dialect-independent mapping, probing alternate key names with JavaScript
`||` falsy fall-through; the damper section falls back to the suspension
section when the `DAMPER` section is absent (any present section object is
truthy). -/
def applyGenericMapping (setup : ParsedSetup) (raw : SetupFile) : ParsedSetup :=
  let tire := (secGet raw "TIRE").getD []
  let susp := (secGet raw "SUSPENSION").getD []
  let damper := (secGet raw "DAMPER").getD susp
  let aeroS := (secGet raw "AERO").getD []
  let brake := (secGet raw "BRAKE").getD []
  let diffS := (secGet raw "DIFFERENTIAL").getD []
  let gear := (secGet raw "GEARS").getD []
  let gears := gearList gear
  { setup with
    tirePressures :=
      { frontLeft := parseNumber (orRaw (lookupKV tire "LEFT_FRONT") (lookupKV tire "PRESSURE_LF"))
        frontRight := parseNumber (orRaw (lookupKV tire "RIGHT_FRONT") (lookupKV tire "PRESSURE_RF"))
        rearLeft := parseNumber (orRaw (lookupKV tire "LEFT_REAR") (lookupKV tire "PRESSURE_LR"))
        rearRight := parseNumber (orRaw (lookupKV tire "RIGHT_REAR") (lookupKV tire "PRESSURE_RR")) }
    suspension :=
      { front :=
          { springRate := parseNumber (orRaw (lookupKV susp "SPRING_RATE_LF") (lookupKV susp "FRONT_SPRING_RATE"))
            rideHeight := parseNumber (orRaw (lookupKV susp "RIDE_HEIGHT_LF") (lookupKV susp "FRONT_RIDE_HEIGHT"))
            camber := parseNumber (orRaw (lookupKV susp "CAMBER_LF") (lookupKV susp "FRONT_CAMBER"))
            toe := parseNumber (orRaw (lookupKV susp "TOE_IN_LF") (lookupKV susp "FRONT_TOE"))
            antiRollBar := parseNumber (orRaw (lookupKV susp "FRONT_ANTI_ROLL_BAR") (lookupKV susp "ARB_FRONT")) }
        rear :=
          { springRate := parseNumber (orRaw (lookupKV susp "SPRING_RATE_LR") (lookupKV susp "REAR_SPRING_RATE"))
            rideHeight := parseNumber (orRaw (lookupKV susp "RIDE_HEIGHT_LR") (lookupKV susp "REAR_RIDE_HEIGHT"))
            camber := parseNumber (orRaw (lookupKV susp "CAMBER_LR") (lookupKV susp "REAR_CAMBER"))
            toe := parseNumber (orRaw (lookupKV susp "TOE_IN_LR") (lookupKV susp "REAR_TOE"))
            antiRollBar := parseNumber (orRaw (lookupKV susp "REAR_ANTI_ROLL_BAR") (lookupKV susp "ARB_REAR")) } }
    dampers :=
      { front :=
          { bump := parseNumber (orRaw (lookupKV damper "BUMP_LF") (lookupKV damper "FRONT_BUMP"))
            rebound := parseNumber (orRaw (lookupKV damper "REBOUND_LF") (lookupKV damper "FRONT_REBOUND")) }
        rear :=
          { bump := parseNumber (orRaw (lookupKV damper "BUMP_LR") (lookupKV damper "REAR_BUMP"))
            rebound := parseNumber (orRaw (lookupKV damper "REBOUND_LR") (lookupKV damper "REAR_REBOUND")) } }
    aero :=
      { frontWing := some (parseNumber (orRaw (lookupKV aeroS "FRONT_WING") (lookupKV aeroS "WING_FRONT")))
        rearWing := some (parseNumber (orRaw (lookupKV aeroS "REAR_WING") (lookupKV aeroS "WING_REAR"))) }
    brakeBias :=
      parseNumber (orRaw (orRaw (lookupKV brake "BIAS") (lookupKV brake "BRAKE_BIAS")) (some (RVal.num 50)))
    differential :=
      if diffS = [] then setup.differential
      else some
        { preload := parseNumber (orRaw (orRaw (lookupKV diffS "PRELOAD") (lookupKV diffS "DIFF_PRELOAD")) (some (RVal.num 0)))
          powerRamp := some (parseNumber (orRaw (orRaw (lookupKV diffS "POWER_RAMP") (lookupKV diffS "DIFF_POWER")) (some (RVal.num 0))))
          coastRamp := some (parseNumber (orRaw (orRaw (lookupKV diffS "COAST_RAMP") (lookupKV diffS "DIFF_COAST")) (some (RVal.num 0)))) }
    gearRatios := if gears = [] then setup.gearRatios else some gears
    additionalSettings :=
      some (raw.sections.filter (fun p => decide (p.1 ∉ genericSectionNames))) }

/-! The dialect path works on the record as an untyped JavaScript object;
`toJObj` renders a typed record as that object, with keys in the insertion
order of the `convertToStructured` literal and absent optional properties
omitted. -/

/-- A numeric leaf. -/
def leafQ (q : ℚ) : JObj := JObj.leaf (JVal.num q)

/-- Corner suspension as an object. -/
def cornerToJ (c : CornerSusp) : JObj :=
  JObj.node
    [("springRate", leafQ c.springRate), ("rideHeight", leafQ c.rideHeight),
     ("camber", leafQ c.camber), ("toe", leafQ c.toe), ("antiRollBar", leafQ c.antiRollBar)]

/-- Damper pair as an object. -/
def damperToJ (d : DamperPair) : JObj :=
  JObj.node [("bump", leafQ d.bump), ("rebound", leafQ d.rebound)]

/-- Aero trim as an object (absent fields omitted). -/
def aeroToJ (a : Aero) : JObj :=
  JObj.node
    ((match a.frontWing with | some q => [("frontWing", leafQ q)] | none => []) ++
     (match a.rearWing with | some q => [("rearWing", leafQ q)] | none => []))

/-- Optional-field rendering helper. -/
def optPart (k : String) : Option JObj → List (String × JObj)
  | some o => [(k, o)]
  | none => []

/-- Metadata as an object. -/
def metaToJ (m : Metadata) : JObj :=
  JObj.node
    ([("created", JObj.leaf m.created.toJ), ("modified", JObj.leaf m.modified.toJ)] ++
     optPart "author" (m.author.map (fun a => JObj.leaf a.toJ)) ++
     [("version", JObj.leaf m.version.toJ)])

/-- Differential as an object. -/
def diffToJ (d : DiffSettings) : JObj :=
  JObj.node
    ([("preload", leafQ d.preload)] ++
     optPart "powerRamp" (d.powerRamp.map leafQ) ++
     optPart "coastRamp" (d.coastRamp.map leafQ))

/-- A JavaScript array of numbers as an index-keyed object. -/
def arrToJ (l : List ℚ) : JObj :=
  JObj.node (l.enum.map (fun p => (toString p.1, leafQ p.2)))

/-- Raw sections as an object tree. -/
def sectionsToJ (s : List (String × List (String × RVal))) : JObj :=
  JObj.node (s.map (fun p => (p.1, JObj.node (p.2.map (fun q => (q.1, JObj.leaf q.2.toJ))))))

/-- The structured record as the JavaScript object the dynamic accessors
traverse. -/
def toJObj (s : ParsedSetup) : JObj :=
  JObj.node
    ([("carId", JObj.leaf s.carId.toJ), ("trackId", JObj.leaf s.trackId.toJ),
      ("name", JObj.leaf s.name.toJ),
      ("suspension", JObj.node [("front", cornerToJ s.suspension.front), ("rear", cornerToJ s.suspension.rear)]),
      ("dampers", JObj.node [("front", damperToJ s.dampers.front), ("rear", damperToJ s.dampers.rear)]),
      ("tirePressures",
        JObj.node
          [("frontLeft", leafQ s.tirePressures.frontLeft), ("frontRight", leafQ s.tirePressures.frontRight),
           ("rearLeft", leafQ s.tirePressures.rearLeft), ("rearRight", leafQ s.tirePressures.rearRight)]),
      ("aero", aeroToJ s.aero), ("brakeBias", leafQ s.brakeBias)] ++
     optPart "metadata" (s.metadata.map metaToJ) ++
     optPart "differential" (s.differential.map diffToJ) ++
     optPart "gearRatios" (s.gearRatios.map arrToJ) ++
     optPart "additionalSettings" (s.additionalSettings.map sectionsToJ) ++
     optPart "description" (s.description.map (fun d => JObj.leaf d.toJ)))

/-- The per-field value computation of `applyCarMapping` (`parser.ts` line
184): apply the registered decode transform if any, else coerce a numeric
string with `Number`, else keep the raw value unchanged. -/
def mappedValue (m : CarMappingConfig) (targetField : String) (rawValue : RVal) : JVal :=
  match lookupKV m.valueTransformations targetField with
  | some t => t.fromRaw rawValue.toJ
  | none =>
      match rawValue with
      | RVal.str s =>
          match jsNumber s with
          | some q => JVal.num q
          | none => RVal.str s |>.toJ
      | v => v.toJ

/-- Field loop of `applyCarMapping`: missing source keys are skipped; a
present one is transformed/coerced and stored at the dotted target path. -/
def applyFields (m : CarMappingConfig) (rawSection : List (String × RVal)) :
    List (String × String) → JObj → Except PathErr JObj
  | [], r => Except.ok r
  | (tf, sf) :: rest, r =>
      match lookupKV rawSection sf with
      | none => applyFields m rawSection rest r
      | some rv =>
          match setNestedParts r (pathParts tf) (mappedValue m tf rv) with
          | Except.ok r2 => applyFields m rawSection rest r2
          | Except.error e => Except.error e

/-- Section loop of `applyCarMapping`: sections of the dialect absent from
the raw table are skipped. -/
def applySections (m : CarMappingConfig) (raw : SetupFile) :
    List (String × List (String × String)) → JObj → Except PathErr JObj
  | [], r => Except.ok r
  | (secName, secMap) :: rest, r =>
      match secGet raw secName with
      | none => applySections m raw rest r
      | some rawSection =>
          match applyFields m rawSection secMap r with
          | Except.ok r2 => applySections m raw rest r2
          | Except.error e => Except.error e

/-- `applyCarMapping` (`parser.ts` line 167). -/
def applyCarMapping (r : JObj) (raw : SetupFile) (m : CarMappingConfig) :
    Except PathErr JObj :=
  applySections m raw m.fieldMappings r

/-- `convertToStructured` (`parser.ts` line 100): defaults, then the
registered dialect mapping when the car identifier is registered, else the
generic fallback. `now` stands for `new Date().toISOString()`. -/
def convertToStructured (reg : Registry) (now : String) (raw : SetupFile) :
    Except PathErr JObj :=
  let s0 := initialSetup raw.header now
  match lookupCar reg raw.header.carIdentifier with
  | some m => applyCarMapping (toJObj s0) raw m
  | none => Except.ok (toJObj (applyGenericMapping s0 raw))

/-! ### Encode: `convertToSto`'s initial raw object and
`applyCarMappingReverse` (`parser.ts` line 374) -/

/-- The raw output object being built by `convertToSto`: reserved header
scalars plus ordered sections whose values are whatever the dynamic reads
produced. -/
structure RawOut where
  version : JObj
  car : JObj
  track : JObj
  timestamp : JObj
  sections : List (String × List (String × JObj))

/-- `x || d` on the result of a dynamic property read (`undefined` and falsy
leaves fall back to the default; containers are truthy). -/
def jValOr (o : Option JObj) (d : JObj) : JObj :=
  match o with
  | some (JObj.leaf v) => if truthyJ v then JObj.leaf v else d
  | some o2 => o2
  | none => d

/-- The initial raw object of `convertToSto` (`parser.ts` line 336):
`VERSION`, `CAR`, `TRACK`, `TIMESTAMP` and the `SETUPS.ACTIVE` section; a
missing property reads as `undefined`. -/
def initRawOut (now : String) (setup : JObj) : RawOut where
  version := jValOr (getNested setup ["metadata", "version"]) (JObj.leaf (JVal.str "1.0"))
  car := (getNested setup ["carId"]).getD (JObj.leaf JVal.undef)
  track := (getNested setup ["trackId"]).getD (JObj.leaf JVal.undef)
  timestamp := jValOr (getNested setup ["metadata", "modified"]) (JObj.leaf (JVal.str now))
  sections := [("SETUPS", [("ACTIVE", (getNested setup ["name"]).getD (JObj.leaf JVal.undef))])]

/-- Lift an encode transform to the dynamic read result: the two registered
transform shapes are numeric, so a container argument coerces to `NaN`. -/
def toRawObj (t : TransformPair) : JObj → JObj
  | JObj.leaf v => JObj.leaf (t.toRaw v)
  | JObj.node _ => JObj.leaf JVal.nan

/-- `rawSetup[sectionName] = rawSetup[sectionName] || {}` of the reverse
mapping: create the section if absent. -/
def outEnsure (out : RawOut) (n : String) : RawOut :=
  match lookupKV out.sections n with
  | some _ => out
  | none => { out with sections := out.sections ++ [(n, [])] }

/-- `rawSetup[sectionName][sourceField] = rawValue`: write into an existing
section (the reverse mapping always ensures the section first). -/
def outSetField (out : RawOut) (n k : String) (v : JObj) : RawOut :=
  { out with
    sections :=
      out.sections.map (fun p => if p.1 = n then (p.1, setKV p.2 k v) else p) }

/-- Field loop of `applyCarMappingReverse`: read the canonical field through
the dotted path, skip it when `undefined`, apply the encode transform if
registered, and write the raw value under the dialect's source key. -/
def revFields (m : CarMappingConfig) (secName : String) (setup : JObj) :
    List (String × String) → RawOut → RawOut
  | [], out => out
  | (tf, sf) :: rest, out =>
      match getNested setup (pathParts tf) with
      | none => revFields m secName setup rest out
      | some sub =>
          let rawValue :=
            match lookupKV m.valueTransformations tf with
            | some t => toRawObj t sub
            | none => sub
          revFields m secName setup rest (outSetField out secName sf rawValue)

/-- Section loop of `applyCarMappingReverse`. -/
def revSections (m : CarMappingConfig) (setup : JObj) :
    List (String × List (String × String)) → RawOut → RawOut
  | [], out => out
  | (secName, secMap) :: rest, out =>
      revSections m setup rest (revFields m secName setup secMap (outEnsure out secName))

/-- `applyCarMappingReverse` (`parser.ts` line 374). -/
def applyCarMappingReverse (setup : JObj) (out : RawOut) (m : CarMappingConfig) : RawOut :=
  revSections m setup m.fieldMappings out

/-- Read one raw key of one section of the built raw output. -/
def outFieldGet (out : RawOut) (n k : String) : Option JObj :=
  (lookupKV out.sections n).bind (fun es => lookupKV es k)

/-! ### The tabular text parser (`parseIniString`, `parser.ts` line 58)

`parseIniString` delegates tokenization to the npm `ini` dependency (whose
source is outside this repository) and then extracts the reserved header
keys. `ini.parse` is modelled here after its published line-based behavior:
lines are split on newlines; blank and `;`/`#` comment lines are skipped; a
`[name]` line opens a section; a `key = value` line writes into the current
section (or the top level before any section), converting only the literals
`true`/`false`/`null`; any other non-blank line is a bare key with value
`true`. It is a total function — no input makes it throw — so the
`try`/`catch` of `parseIniString` is dead and the embedding returns a
`SetupFile` directly. (Quote stripping, dotted section nesting and reopening
a section whose name collides with a scalar key are outside the model.) -/

/-- A top-level entry of the ini output object: a scalar or a section. -/
inductive TopVal where
  | scalar (v : RVal)
  | sect (entries : List (String × RVal))
deriving DecidableEq

/-- Convert a raw value token: only `true`, `false` and `null` leave string
form. -/
def convertV (s : String) : RVal :=
  if s = "true" then RVal.boolV true
  else if s = "false" then RVal.boolV false
  else if s = "null" then RVal.nullV
  else RVal.str s

/-- Ensure a section entry exists at the top level. -/
def ensureSect (out : List (String × TopVal)) (n : String) : List (String × TopVal) :=
  match lookupKV out n with
  | some (TopVal.sect _) => out
  | _ => setKV out n (TopVal.sect [])

/-- Write one key/value, either at the top level or into the current
section. -/
def iniWrite (out : List (String × TopVal)) (cur : Option String) (k : String) (v : RVal) :
    List (String × TopVal) :=
  match cur with
  | none => setKV out k (TopVal.scalar v)
  | some sec =>
      match lookupKV out sec with
      | some (TopVal.sect es) => setKV out sec (TopVal.sect (setKV es k v))
      | _ => out

/-- Process one (already trimmed, non-blank, non-comment) line: a
`[name]` line opens a section; otherwise split at the first `=` (a line
starting with `=` has an empty key and is skipped, a line without `=` is a
bare key with value `true`). -/
def iniStep (st : List (String × TopVal) × Option String) (line : String) :
    List (String × TopVal) × Option String :=
  match line.data with
  | '[' :: rest =>
      if rest.getLast? = some ']' then
        (ensureSect st.1 (String.mk (trimChars rest.dropLast)), some (String.mk (trimChars rest.dropLast)))
      else
        match splitFirstEq ('[' :: rest) with
        | none => (iniWrite st.1 st.2 (String.mk (trimChars ('[' :: rest))) (RVal.boolV true), st.2)
        | some (k, v) =>
            if k = [] then st
            else (iniWrite st.1 st.2 (String.mk (trimChars k)) (convertV (String.mk (trimChars v))), st.2)
  | cs =>
      match splitFirstEq cs with
      | none => (iniWrite st.1 st.2 (String.mk (trimChars cs)) (RVal.boolV true), st.2)
      | some (k, v) =>
          if k = [] then st
          else (iniWrite st.1 st.2 (String.mk (trimChars k)) (convertV (String.mk (trimChars v))), st.2)

/-- Comment lines start with `;` or `#`. -/
def isCommentLine (l : String) : Bool :=
  match l.data with
  | ';' :: _ => true
  | '#' :: _ => true
  | _ => false

/-- The lines `ini.parse` iterates over: split on newlines, trimmed, with
blank and comment lines dropped. -/
def iniLines (content : String) : List String :=
  ((splitOnChar '\n' content.data).map (fun l => String.mk (trimChars l))).filter
    (fun l => decide (l.data ≠ []) && !(isCommentLine l))

/-- Model of `ini.parse`: a total fold over the lines. -/
def iniParse (content : String) : List (String × TopVal) :=
  ((iniLines content).foldl iniStep ([], none)).1

/-- Header extraction `parsed.KEY || default` for a reserved scalar key (a
section-valued reserved key is simplified to the default). -/
def hdrVal (out : List (String × TopVal)) (k : String) (d : RVal) : RVal :=
  match lookupKV out k with
  | some (TopVal.scalar v) => if truthyR v then v else d
  | _ => d

/-- The reserved header keys deleted before collecting sections. -/
def reservedKeys : List String := ["VERSION", "CAR", "TRACK", "TIMESTAMP"]

/-- `parseIniString` (`parser.ts` line 58): total — every input yields a
`SetupFile`. The header takes `VERSION`/`CAR`/`TRACK`/`TIMESTAMP` with
defaults, the name comes from `SETUPS?.ACTIVE`, and the remaining
object-valued top-level entries become the sections (scalar leftovers are
dropped; the `SETUPS` section itself is kept, as the source only deletes the
four reserved keys). -/
def parseIniString (now : String) (content : String) : SetupFile :=
  let out := iniParse content
  { header :=
      { version := hdrVal out "VERSION" (RVal.str "1.0")
        carIdentifier := hdrVal out "CAR" (RVal.str "")
        trackIdentifier := hdrVal out "TRACK" (RVal.str "")
        name :=
          match lookupKV out "SETUPS" with
          | some (TopVal.sect es) =>
              match lookupKV es "ACTIVE" with
              | some v => if truthyR v then v else RVal.str "Unnamed Setup"
              | none => RVal.str "Unnamed Setup"
          | _ => RVal.str "Unnamed Setup"
        timestamp := hdrVal out "TIMESTAMP" (RVal.str now) }
    sections :=
      out.filterMap
        (fun p =>
          if p.1 ∈ reservedKeys then none
          else match p.2 with
               | TopVal.sect es => some (p.1, es)
               | TopVal.scalar _ => none) }

/-- `parseString` (`parser.ts` line 44): tokenize, then structure. -/
def parseString (reg : Registry) (now : String) (content : String) :
    Except PathErr JObj :=
  convertToStructured reg now (parseIniString now content)

/-! ### Instrumentation helpers for the theorems -/

/-- Decode and read one dotted path of the resulting record (`none` when the
decode failed or the path is absent). -/
def decodeGet (reg : Registry) (now : String) (raw : SetupFile) (p : List String) :
    Option JObj :=
  match convertToStructured reg now raw with
  | Except.ok r => getNested r p
  | Except.error _ => none

/-- A header whose car identifier has no registered dialect. -/
def hdrUnknown : Header :=
  ⟨RVal.str "1", RVal.str "unknown_car", RVal.str "", RVal.str "n", RVal.str "ts"⟩

/-- A header carrying the Ferrari 488 GT3 identifier. -/
def hdrFer : Header :=
  ⟨RVal.str "1", RVal.str "ferrari_488_gt3", RVal.str "", RVal.str "n", RVal.str "ts"⟩

/-! ### C1 — gear-ratio holes -/

/-- A raw table whose `GEARS` section has `GEAR_1`, `GEAR_2` and `GEAR_4`
but no `GEAR_3`. -/
def rawGears : SetupFile :=
  ⟨hdrUnknown,
   [("GEARS", [("GEAR_1", RVal.num 3), ("GEAR_2", RVal.num 2), ("GEAR_4", RVal.num 1)])]⟩

/-- C1 counterexample: with `GEAR_1`, `GEAR_2`, `GEAR_4` present and
`GEAR_3` missing, the generic decode collects THREE gear ratios — the loop
over `GEAR_1..GEAR_8` has no break, so a hole does not truncate the
sequence, contradicting the claimed two-element result. -/
theorem gearRatios_hole_cex :
    (applyGenericMapping (initialSetup hdrUnknown "T") rawGears).gearRatios = some [3, 2, 1] ∧
    ((applyGenericMapping (initialSetup hdrUnknown "T") rawGears).gearRatios).map
        List.length ≠ some 2 := by
  exact ⟨rfl, by decide⟩

/-- C1 (amended): gear collection skips missing indices instead of stopping
at them: a `GEARS` section with exactly `GEAR_1`, `GEAR_2` and `GEAR_4`
decodes to the three-element sequence of their parsed values, in index
order. -/
theorem gearRatios_skips_holes (hdr : Header) (now : String) (a b c : RVal) :
    (applyGenericMapping (initialSetup hdr now)
        ⟨hdr, [("GEARS", [("GEAR_1", a), ("GEAR_2", b), ("GEAR_4", c)])]⟩).gearRatios =
      some [parseNumber (some a), parseNumber (some b), parseNumber (some c)] := rfl

/-- Witness for C1's amended theorem at a concrete gear table. -/
theorem gearRatios_skips_holes_witness :
    (applyGenericMapping (initialSetup hdrUnknown "W")
        ⟨hdrUnknown,
         [("GEARS", [("GEAR_1", RVal.num 5), ("GEAR_2", RVal.num 4), ("GEAR_4", RVal.num 3)])]⟩).gearRatios =
      some [parseNumber (some (RVal.num 5)), parseNumber (some (RVal.num 4)),
            parseNumber (some (RVal.num 3))] :=
  gearRatios_skips_holes hdrUnknown "W" (RVal.num 5) (RVal.num 4) (RVal.num 3)

/-! ### C2 — dialect registration -/

/-- A second definition reusing the Ferrari vehicle identifier. -/
def dupFerrariMapping : CarMappingConfig :=
  { carId := "ferrari_488_gt3", carName := "Duplicate", fieldMappings := [],
    valueTransformations := [] }

/-- A definition whose transform map names a canonical path that is not a
field-mapping target. -/
def badTransformMapping : CarMappingConfig :=
  { carId := "bad_car", carName := "Bad", fieldMappings := [("S", [("a.b", "K")])],
    valueTransformations := [("not.a.target", ⟨id, id⟩)] }

/-- C2 counterexample: registering a definition whose `carId` is already
registered does not fail — it silently replaces the existing entry — and
registering a definition with a transform key that has no field-mapping
target also succeeds; `registerCarMapping` performs no validation at all. -/
theorem register_duplicate_cex :
    (lookupKV (registerCarMapping (newParser [ferrari488GT3Mapping]) dupFerrariMapping)
        "ferrari_488_gt3").map (fun m => m.carName) = some "Duplicate" ∧
    (lookupKV (registerCarMapping [] badTransformMapping) "bad_car").map
        (fun m => m.carName) = some "Bad" :=
  ⟨rfl, rfl⟩

/-- C2 (amended): registration always succeeds: the new definition is stored
under its `carId` (overwriting any existing definition with that
identifier), every other key is untouched, and no consistency check between
the transform map and the field-mapping table is performed. -/
theorem register_always_succeeds (reg : Registry) (m : CarMappingConfig) :
    lookupKV (registerCarMapping reg m) m.carId = some m ∧
    ∀ k, k ≠ m.carId → lookupKV (registerCarMapping reg m) k = lookupKV reg k :=
  ⟨lookupKV_setKV_self reg m.carId m,
   fun k hk => lookupKV_setKV_ne reg m.carId k m hk⟩

/-- Witness for C2's amended theorem on an empty registry. -/
theorem register_always_succeeds_witness :
    lookupKV (registerCarMapping [] dupFerrariMapping) "ferrari_488_gt3" =
        some dupFerrariMapping ∧
    lookupKV (registerCarMapping [] dupFerrariMapping) "other" =
        lookupKV ([] : Registry) "other" :=
  ⟨(register_always_succeeds [] dupFerrariMapping).1,
   (register_always_succeeds [] dupFerrariMapping).2 "other" (by decide)⟩

/-! ### C4 — transform round trip

The transforms execute on JavaScript numbers, i.e. IEEE-754 binary64
doubles. The `JVal` embedding above uses exact rational arithmetic, which is
faithful for the sign-flip transforms (negation is exact on every double)
but idealizes the Porsche spring-rate pair: on real doubles `* 1000` and
`/ 1000` each round their result, and multiplication overflows
large-magnitude finite inputs to Infinity. The binary64 model below makes
that precise: a finite double is a rational on the mantissa grid `m * 2^g`
(`|m| < 2^53`, subnormal grid at `2^(-1074)`), and each operation is the
correct rounding (round to nearest, ties to even) of the exact rational
result, with overflow to Infinity beyond the largest finite double.
`Rat.mul`/`Rat.inv`/`Rat.add`/`Rat.sub` are `@[irreducible]` in the library
and are made semireducible inside this section so that concrete double
computations evaluate. -/

section DoubleSemantics

attribute [local semireducible] Rat.mul Rat.inv Rat.add Rat.sub

/-- IEEE-754 binary64 values: finite (as the exact rational the bit pattern
denotes), the two infinities, and NaN. Signed zero is not distinguished. -/
inductive F64 where
  | fin (q : ℚ)
  | inf
  | ninf
  | nanF
deriving DecidableEq

/-- Is `2^e ≤ n / d`? (Integer comparison form.) -/
def pow2LE (e : ℤ) (n d : ℕ) : Bool :=
  if 0 ≤ e then 2 ^ e.toNat * d ≤ n else d ≤ n * 2 ^ (-e).toNat

/-- Binary search for the largest `e` with `2^e ≤ n / d` (the floor of the
base-two logarithm), for `n / d` in `[2^(-2200), 2^2200)` — a range covering
every double and every intermediate value arising here. Invariant:
`pow2LE lo` holds and `pow2LE hi` fails. -/
def log2Search (n d : ℕ) : Nat → ℤ → ℤ → ℤ
  | 0, lo, _ => lo
  | fuel + 1, lo, hi =>
      if hi ≤ lo + 1 then lo
      else
        let mid := (lo + hi) / 2
        if pow2LE mid n d then log2Search n d fuel mid hi
        else log2Search n d fuel lo mid

/-- Round `a / b` (with `b > 0`) to a natural number, to nearest with ties
to even. -/
def rneNat (a b : ℕ) : ℕ :=
  let q := a / b
  let r := a % b
  if 2 * r < b then q
  else if b < 2 * r then q + 1
  else if q % 2 = 0 then q else q + 1

/-- Round the positive rational `n / d` to binary64: find its binade, place
it on the mantissa grid `m * 2^g` with `g = max (floorlog2 - 52) (-1074)`
by round-to-nearest-ties-to-even, and overflow to `+Infinity` beyond the
largest finite double `(2^53 - 1) * 2^971` (the next grid point above it is
`2^1024`, so any rounded value above it is an IEEE overflow). -/
def roundPosND (n d : ℕ) : F64 :=
  let e := log2Search n d 20 (-2200) 2200
  let g : ℤ := max (e - 52) (-1074)
  let m := if 0 ≤ g then rneNat n (d * 2 ^ g.toNat) else rneNat (n * 2 ^ (-g).toNat) d
  if 0 ≤ g then
    if (2 ^ 53 - 1) * 2 ^ 971 < m * 2 ^ g.toNat then F64.inf
    else F64.fin ((m * 2 ^ g.toNat : ℕ) : ℚ)
  else F64.fin ((m : ℚ) / ((2 ^ (-g).toNat : ℕ) : ℚ))

/-- Correct rounding of a rational to binary64 (sign split around zero). -/
def roundF (q : ℚ) : F64 :=
  if q.num = 0 then F64.fin 0
  else if 0 < q.num then roundPosND q.num.toNat q.den
  else
    match roundPosND (-q.num).toNat q.den with
    | F64.fin v => F64.fin (-v)
    | F64.inf => F64.ninf
    | o => o

/-- Binary64 multiplication: correct rounding of the exact product; the
infinity and NaN rows follow IEEE-754 (`0 * ±∞ = NaN`). -/
def dmul : F64 → F64 → F64
  | F64.fin a, F64.fin b => roundF (a * b)
  | F64.fin a, F64.inf => if a = 0 then F64.nanF else if 0 < a then F64.inf else F64.ninf
  | F64.fin a, F64.ninf => if a = 0 then F64.nanF else if 0 < a then F64.ninf else F64.inf
  | F64.inf, F64.fin b => if b = 0 then F64.nanF else if 0 < b then F64.inf else F64.ninf
  | F64.ninf, F64.fin b => if b = 0 then F64.nanF else if 0 < b then F64.ninf else F64.inf
  | F64.inf, F64.inf => F64.inf
  | F64.inf, F64.ninf => F64.ninf
  | F64.ninf, F64.inf => F64.ninf
  | F64.ninf, F64.ninf => F64.inf
  | _, _ => F64.nanF

/-- Binary64 division: correct rounding of the exact quotient; division by
zero gives a signed infinity (`0 / 0` NaN), an infinity divided by a finite
value stays infinite, and a finite value divided by an infinity is zero. -/
def ddiv : F64 → F64 → F64
  | F64.fin a, F64.fin b =>
      if b = 0 then (if a = 0 then F64.nanF else if 0 < a then F64.inf else F64.ninf)
      else roundF (a / b)
  | F64.inf, F64.fin b => if 0 ≤ b then F64.inf else F64.ninf
  | F64.ninf, F64.fin b => if 0 ≤ b then F64.ninf else F64.inf
  | F64.fin _, F64.inf => F64.fin 0
  | F64.fin _, F64.ninf => F64.fin 0
  | _, _ => F64.nanF

/-- The Porsche spring-rate decode transform `parseFloat(value) * 1000`
under binary64 semantics (on a numeric value `parseFloat` is the
identity). -/
def mulFromRawD (v : F64) : F64 := dmul v (F64.fin 1000)

/-- The Porsche spring-rate encode transform `value / 1000` under binary64
semantics. -/
def div1000D (v : F64) : F64 := ddiv v (F64.fin 1000)

/-- The camber transforms' `-value` under binary64 semantics: negation is
exact on every double. -/
def negD : F64 → F64
  | F64.fin q => F64.fin (-q)
  | F64.inf => F64.ninf
  | F64.ninf => F64.inf
  | F64.nanF => F64.nanF

/-- The finite double `2^1023` (about `8.99e307`; representable as
`2^52 * 2^971` on the mantissa grid, below the largest finite double). -/
def bigX : ℚ := ((2 ^ 1023 : ℕ) : ℚ)

/-- C4 counterexample: under the binary64 arithmetic the program actually
runs, the Porsche spring-rate pair is NOT an exact round trip for every
finite x: at the finite double x = 2^1023 the decode multiply by 1000
overflows to Infinity and the encode divide leaves Infinity, so
`toRaw (fromRaw x) = Infinity ≠ x` — refuting the claim exactly at its
large-magnitude edge. -/
theorem transform_round_trip_cex :
    div1000D (mulFromRawD (F64.fin bigX)) = F64.inf ∧ F64.inf ≠ F64.fin bigX := by
  constructor
  · set_option maxRecDepth 10000 in decide
  · set_option maxRecDepth 10000 in decide

/-- C4 (amended): every value transformation registered by the two dialect
definitions satisfies the round-trip law `toRaw (fromRaw x) = x` for every
numeric x in exact rational arithmetic, and the sign-flip (camber)
transforms are exact under IEEE-754 binary64 semantics as well, since
double negation is exact. The Porsche spring-rate pair satisfies the law
only in that idealized arithmetic: on the program's doubles, multiplying by
1000 rounds and overflows large-magnitude finite x to Infinity (see the
counterexample), so exactness for ALL finite x holds per transform only for
the sign-flip pairs. -/
theorem transform_round_trip :
    (∀ p : String × TransformPair,
        (p ∈ ferrari488GT3Mapping.valueTransformations ∨
         p ∈ porsche911GT3RMapping.valueTransformations) →
        ∀ q : ℚ, p.2.toRaw (p.2.fromRaw (JVal.num q)) = JVal.num q) ∧
    (∀ q : ℚ, negD (negD (F64.fin q)) = F64.fin q) := by
  constructor
  · intro p h q
    have hneg : jneg (negFromRaw (JVal.num q)) = JVal.num q := by
      simp [negFromRaw, parseFloatV, jneg, toNumberV]
    have hscale : jdiv1000 (mulFromRaw (JVal.num q)) = JVal.num q := by
      have hq : q * 1000 / 1000 = q := by
        rw [mul_div_assoc]
        norm_num
      simp [mulFromRaw, parseFloatV, jdiv1000, toNumberV, hq]
    rcases h with h | h
    · simp only [ferrari488GT3Mapping, List.mem_cons, List.not_mem_nil, or_false] at h
      rcases h with rfl | rfl
      · exact hneg
      · exact hneg
    · simp only [porsche911GT3RMapping, List.mem_cons, List.not_mem_nil, or_false] at h
      rcases h with rfl | rfl | rfl | rfl
      · exact hscale
      · exact hscale
      · exact hneg
      · exact hneg
  · intro q
    simp [negD]

/-- Witness for C4's amended theorem: the Ferrari front-camber pair at
`x = 3` in the value model, and double negation at the same point. -/
theorem transform_round_trip_witness :
    jneg (negFromRaw (JVal.num 3)) = JVal.num 3 ∧
    negD (negD (F64.fin 3)) = F64.fin 3 :=
  ⟨transform_round_trip.1 ("suspension.front.camber", ⟨negFromRaw, jneg⟩)
      (Or.inl (List.mem_cons_self _ _)) 3,
   transform_round_trip.2 3⟩

end DoubleSemantics

/-! ### C10 — falsy alias fall-through in the generic mapper -/

/-- C10: in the generic fallback, a falsy raw value (`0`, `""`, `false`,
`null`) under an earlier alias falls through to the next alias or the
default: `TIRE.LEFT_FRONT = 0` with `TIRE.PRESSURE_LF = 200` decodes front-left
pressure 200, and `BRAKE.BIAS = 0` (with no `BRAKE_BIAS`) decodes brake bias
50. -/
theorem generic_falsy_alias_fallthrough (hdr : Header) (now : String) (v w : RVal)
    (hv : truthyR v = false) (hw : truthyR w = false) :
    (applyGenericMapping (initialSetup hdr now)
        ⟨hdr, [("TIRE", [("LEFT_FRONT", v), ("PRESSURE_LF", RVal.num 200)]),
               ("BRAKE", [("BIAS", w)])]⟩).tirePressures.frontLeft = 200 ∧
    (applyGenericMapping (initialSetup hdr now)
        ⟨hdr, [("TIRE", [("LEFT_FRONT", v), ("PRESSURE_LF", RVal.num 200)]),
               ("BRAKE", [("BIAS", w)])]⟩).brakeBias = 50 := by
  constructor <;>
    simp [applyGenericMapping, secGet, lookupKV, orRaw, hv, hw, parseNumber]

/-- Witness for C10 with the claim's numeric-zero falsy values. -/
theorem generic_falsy_alias_fallthrough_witness :
    (applyGenericMapping (initialSetup hdrUnknown "T")
        ⟨hdrUnknown, [("TIRE", [("LEFT_FRONT", RVal.num 0), ("PRESSURE_LF", RVal.num 200)]),
                      ("BRAKE", [("BIAS", RVal.num 0)])]⟩).tirePressures.frontLeft = 200 ∧
    (applyGenericMapping (initialSetup hdrUnknown "T")
        ⟨hdrUnknown, [("TIRE", [("LEFT_FRONT", RVal.num 0), ("PRESSURE_LF", RVal.num 200)]),
                      ("BRAKE", [("BIAS", RVal.num 0)])]⟩).brakeBias = 50 :=
  generic_falsy_alias_fallthrough hdrUnknown "T" (RVal.num 0) (RVal.num 0)
    (by decide) (by decide)

/-! ### C6 — the text parser never fails -/

/-- C6 counterexample: the input with an unterminated section header (one of
the claim's examples of text that "cannot be tokenized") parses to a raw
table instead of failing: the broken header line becomes a top-level bare
key, the following key/value pair a top-level scalar, and both are dropped
from the sections, leaving a default header and no sections. No input makes
the parse fail. -/
theorem parse_never_fails_cex :
    parseIniString "T" "[UNTERMINATED\nKEY = 1" =
      { header := ⟨RVal.str "1.0", RVal.str "", RVal.str "", RVal.str "Unnamed Setup",
                   RVal.str "T"⟩,
        sections := [] } := by
  rfl

/-- C6 (amended): the parse never fails — every input text yields a raw
table. Untokenizable lines are handled leniently: a non-reserved key outside
any section becomes a dropped top-level scalar, an unterminated header is a
bare key that does not stop later sections from parsing, and a line without
`=` inside a section becomes a key with value `true`. -/
theorem parse_lenient (now : String) :
    (parseIniString now "KEY = 1").sections = [] ∧
    (parseIniString now "[A\n[S]\nX = 2").sections = [("S", [("X", RVal.str "2")])] ∧
    (parseIniString now "[S]\nBAD LINE NO EQUALS\nX = 3").sections =
      [("S", [("BAD LINE NO EQUALS", RVal.boolV true), ("X", RVal.str "3")])] :=
  ⟨rfl, rfl, rfl⟩

/-- Witness for C6's amended theorem at a concrete timestamp. -/
theorem parse_lenient_witness :
    (parseIniString "W" "KEY = 1").sections = [] ∧
    (parseIniString "W" "[A\n[S]\nX = 2").sections = [("S", [("X", RVal.str "2")])] ∧
    (parseIniString "W" "[S]\nBAD LINE NO EQUALS\nX = 3").sections =
      [("S", [("BAD LINE NO EQUALS", RVal.boolV true), ("X", RVal.str "3")])] :=
  parse_lenient "W"

/-! ### C5 — Ferrari camber sign flip -/

/-- Raw table with the Ferrari identifier and `SUSPENSION.CAMBER_LF = 3.0`. -/
def rawC5 : SetupFile := ⟨hdrFer, [("SUSPENSION", [("CAMBER_LF", RVal.num 3)])]⟩

/-- C5: under the Ferrari 488 GT3 dialect, raw `CAMBER_LF = 3.0` decodes to
canonical `suspension.front.camber = -3.0`, and reverse-mapping the decoded
record (whose front camber is `-3.0`) emits raw key `CAMBER_LF = 3.0` in the
`SUSPENSION` section. -/
theorem ferrari_camber_sign_flip :
    ∃ r, convertToStructured defaultParser "T" rawC5 = Except.ok r ∧
      leafNumOf (getNested r ["suspension", "front", "camber"]) = some (-3) ∧
      leafNumOf (outFieldGet (applyCarMappingReverse r (initRawOut "T" r) ferrari488GT3Mapping)
          "SUSPENSION" "CAMBER_LF") = some 3 := by
  refine ⟨_, rfl, ?_, ?_⟩
  · rfl
  · rfl

/-! ### C3 — unparsable numeric raw values in the dialect path -/

/-- Raw table with the Ferrari identifier and a `TOE_LF` raw value chosen by
the caller (the `suspension.front.toe` field has no registered transform). -/
def rawFerToe (s : String) : SetupFile :=
  ⟨hdrFer, [("SUSPENSION", [("TOE_LF", RVal.str s)])]⟩

/-- C3 counterexample: decoding the Ferrari dialect with raw
`TOE_LF = "abc"` (not parsable as a number) stores the raw string itself in
`suspension.front.toe`; the canonical field is NOT set to zero. -/
theorem decode_unparsable_cex :
    leafStrOf (decodeGet defaultParser "T" (rawFerToe "abc") ["suspension", "front", "toe"]) =
      some "abc" ∧
    leafNumOf (decodeGet defaultParser "T" (rawFerToe "abc") ["suspension", "front", "toe"]) ≠
      some 0 := by
  constructor
  · rfl
  · decide

/-- C3 (amended): in the dialect decode, a mapped raw value with no
registered transform is coerced with `Number` only when that parse succeeds;
when the raw string cannot be parsed as a number the raw string itself is
written to the canonical field (not zero), and no error is raised — shown
both for the per-field value computation of `applyCarMapping` in general and
for a full Ferrari decode of an unparsable `TOE_LF`. -/
theorem decode_unparsable_keeps_raw :
    (∀ (m : CarMappingConfig) (tf s : String),
        lookupKV m.valueTransformations tf = none →
        mappedValue m tf (RVal.str s) =
          (match jsNumber s with
           | some q => JVal.num q
           | none => JVal.str s)) ∧
    (∀ s : String, jsNumber s = none →
        leafStrOf (decodeGet defaultParser "T" (rawFerToe s) ["suspension", "front", "toe"]) =
          some s) := by
  constructor
  · intro m tf s h
    simp only [mappedValue, h]
    cases hjs : jsNumber s <;> simp [hjs, RVal.toJ]
  · intro s hns
    have hred :
        decodeGet defaultParser "T" (rawFerToe s) ["suspension", "front", "toe"] =
          some (JObj.leaf (mappedValue ferrari488GT3Mapping "suspension.front.toe"
            (RVal.str s))) := rfl
    rw [hred]
    simp only [mappedValue, hns]
    have hlt :
        lookupKV ferrari488GT3Mapping.valueTransformations "suspension.front.toe" = none := rfl
    rw [hlt]
    simp [hns, RVal.toJ, leafStrOf]

/-- Witness for C3's amended theorem: the transform-free Ferrari toe field
with the unparsable raw value `"abc"`. -/
theorem decode_unparsable_keeps_raw_witness :
    leafStrOf (decodeGet defaultParser "T" (rawFerToe "zz9") ["suspension", "front", "toe"]) =
      some "zz9" :=
  decode_unparsable_keeps_raw.2 "zz9" rfl

/-! ### C7 — the decoded-record invariant -/

/-- The required numeric leaf paths of the claimed invariant. -/
def requiredNumericPaths : List (List String) :=
  [["suspension", "front", "springRate"], ["suspension", "front", "rideHeight"],
   ["suspension", "front", "camber"], ["suspension", "front", "toe"],
   ["suspension", "front", "antiRollBar"],
   ["suspension", "rear", "springRate"], ["suspension", "rear", "rideHeight"],
   ["suspension", "rear", "camber"], ["suspension", "rear", "toe"],
   ["suspension", "rear", "antiRollBar"],
   ["dampers", "front", "bump"], ["dampers", "front", "rebound"],
   ["dampers", "rear", "bump"], ["dampers", "rear", "rebound"],
   ["tirePressures", "frontLeft"], ["tirePressures", "frontRight"],
   ["tirePressures", "rearLeft"], ["tirePressures", "rearRight"],
   ["brakeBias"]]

theorem toJObj_required (s : ParsedSetup) :
    ∀ p ∈ requiredNumericPaths, ∃ q : ℚ, leafNumOf (getNested (toJObj s) p) = some q := by
  intro p hp
  fin_cases hp <;> exact ⟨_, rfl⟩

/-- Raw table with the Ferrari identifier and an unparsable front-left tire
pressure. -/
def rawFerBadTire : SetupFile := ⟨hdrFer, [("TIRE", [("PRESSURE_LF", RVal.str "zz")])]⟩

/-- C7 counterexample: the record decoded from an empty raw table (generic
path) has brake bias 50, not the claimed zero default; and a dialect decode
with an unparsable tire pressure leaves a STRING in the numeric
`tirePressures.frontLeft` field, so not every required numeric leaf holds a
numeric value. -/
theorem decode_defaults_cex :
    leafNumOf (decodeGet defaultParser "T" ⟨hdrUnknown, []⟩ ["brakeBias"]) = some 50 ∧
    leafNumOf (decodeGet defaultParser "T" ⟨hdrUnknown, []⟩ ["brakeBias"]) ≠ some 0 ∧
    leafStrOf (decodeGet defaultParser "T" rawFerBadTire ["tirePressures", "frontLeft"]) =
      some "zz" := by
  refine ⟨rfl, by decide, rfl⟩

/-- C7 (amended): a record decoded through the generic fallback has every
required numeric leaf (suspension, dampers, tire pressures, brake bias)
present with a numeric value; when the input supplies no sections every such
field keeps its default, which is zero for all of them EXCEPT brake bias,
whose default is 50. (In the dialect path an unparsable raw value can leave
a raw string in a numeric field — see the counterexample.) -/
theorem generic_decode_invariant (raw : SetupFile) (now : String)
    (h : lookupCar defaultParser raw.header.carIdentifier = none) :
    ∃ r, convertToStructured defaultParser now raw = Except.ok r ∧
      (∀ p ∈ requiredNumericPaths, ∃ q : ℚ, leafNumOf (getNested r p) = some q) ∧
      (raw.sections = [] →
        (∀ p ∈ requiredNumericPaths, p ≠ ["brakeBias"] → leafNumOf (getNested r p) = some 0) ∧
        leafNumOf (getNested r ["brakeBias"]) = some 50) := by
  refine ⟨toJObj (applyGenericMapping (initialSetup raw.header now) raw), ?_, ?_, ?_⟩
  · simp [convertToStructured, h]
  · exact toJObj_required _
  · intro hsec
    obtain ⟨hd, secs⟩ := raw
    simp only at hsec
    subst hsec
    constructor
    · intro p hp hne
      fin_cases hp <;> first | rfl | (exact absurd rfl hne)
    · rfl

/-- Witness for C7's amended theorem: an empty raw table with an unknown car
identifier. -/
theorem generic_decode_invariant_witness :
    ∃ r, convertToStructured defaultParser "W" ⟨hdrUnknown, []⟩ = Except.ok r ∧
      (∀ p ∈ requiredNumericPaths, ∃ q : ℚ, leafNumOf (getNested r p) = some q) ∧
      ((⟨hdrUnknown, []⟩ : SetupFile).sections = [] →
        (∀ p ∈ requiredNumericPaths, p ≠ ["brakeBias"] → leafNumOf (getNested r p) = some 0) ∧
        leafNumOf (getNested r ["brakeBias"]) = some 50) :=
  generic_decode_invariant ⟨hdrUnknown, []⟩ "W" rfl

/-! ### C8 — the nested path accessor -/

theorem getNested_cons (fs : List (String × JObj)) (p : String) (ps : List String) :
    getNested (JObj.node fs) (p :: ps) =
      (match lookupKV fs p with
       | none => none
       | some o => getNested o ps) := rfl

/-- C8: on a container record, `setNestedProperty` (on the split path) fails
(with the strict-mode `TypeError` that plays the spec's `InvalidPathError`
role) exactly when some intermediate segment of the path already addresses a
non-container (leaf) value; in every other case it succeeds, creating the
missing intermediate containers, and the stored value is readable back at
the full path. -/
theorem setNested_spec (fs : List (String × JObj)) (ps : List String) (v : JVal)
    (h : ps ≠ []) :
    (setNestedParts (JObj.node fs) ps v = Except.error PathErr.typeError ↔
      ∃ n, 1 ≤ n ∧ n < ps.length ∧
        ∃ w, getNested (JObj.node fs) (ps.take n) = some (JObj.leaf w)) ∧
    (∀ o', setNestedParts (JObj.node fs) ps v = Except.ok o' →
      getNested o' ps = some (JObj.leaf v)) := by
  induction ps generalizing fs with
  | nil => exact absurd rfl h
  | cons p rest ih =>
      cases rest with
      | nil =>
          constructor
          · constructor
            · intro hE
              exact absurd hE (by simp [setNestedParts])
            · rintro ⟨n, h1, h2, -⟩
              simp only [List.length_cons, List.length_nil] at h2
              omega
          · intro o' hok
            simp only [setNestedParts, Except.ok.injEq] at hok
            subst hok
            simp [getNested_cons, lookupKV_setKV_self, getNested]
      | cons q rest' =>
          have hne : (q :: rest') ≠ [] := by simp
          rcases hfg : lookupKV fs p with - | o
          · -- missing segment: auto-vivify a fresh container
            have ihe := ih [] hne
            have hnoerr : setNestedParts (JObj.node []) (q :: rest') v ≠
                Except.error PathErr.typeError := by
              intro hE
              rcases ihe.1.mp hE with ⟨n, h1, h2, w, hw⟩
              cases n with
              | zero => omega
              | succ k =>
                  rw [List.take_succ_cons, getNested_cons] at hw
                  simp [lookupKV] at hw
            cases hS : setNestedParts (JObj.node []) (q :: rest') v with
            | error e =>
                cases e
                exact absurd hS hnoerr
            | ok sub =>
                constructor
                · constructor
                  · intro hE
                    simp only [setNestedParts, hfg, hS] at hE
                    exact Except.noConfusion hE
                  · rintro ⟨n, h1, h2, w, hw⟩
                    cases n with
                    | zero => omega
                    | succ k =>
                        rw [List.take_succ_cons, getNested_cons, hfg] at hw
                        exact absurd hw (by simp)
                · intro o' hok
                  simp only [setNestedParts, hfg, hS, Except.ok.injEq] at hok
                  subst hok
                  rw [getNested_cons]
                  simp only [lookupKV_setKV_self]
                  exact ihe.2 sub hS
          · cases o with
            | leaf w =>
                constructor
                · constructor
                  · intro _
                    refine ⟨1, le_refl 1, by simp only [List.length_cons]; omega, w, ?_⟩
                    show getNested (JObj.node fs) [p] = some (JObj.leaf w)
                    rw [getNested_cons, hfg]
                    rfl
                  · intro _
                    simp [setNestedParts, hfg]
                · intro o' hok
                  simp only [setNestedParts, hfg] at hok
                  exact absurd hok (by simp)
            | node g =>
                have ihg := ih g hne
                cases hS : setNestedParts (JObj.node g) (q :: rest') v with
                | error e =>
                    cases e
                    constructor
                    · constructor
                      · intro _
                        rcases ihg.1.mp hS with ⟨n, h1, h2, w, hw⟩
                        refine ⟨n + 1, by omega, by simp only [List.length_cons] at h2 ⊢; omega, w, ?_⟩
                        rw [List.take_succ_cons, getNested_cons, hfg]
                        exact hw
                      · intro _
                        simp [setNestedParts, hfg, hS]
                    · intro o' hok
                      simp only [setNestedParts, hfg, hS] at hok
                      exact absurd hok (by simp)
                | ok sub =>
                    constructor
                    · constructor
                      · intro hE
                        simp only [setNestedParts, hfg, hS] at hE
                        exact Except.noConfusion hE
                      · rintro ⟨n, h1, h2, w, hw⟩
                        cases n with
                        | zero => omega
                        | succ k =>
                            rw [List.take_succ_cons, getNested_cons, hfg] at hw
                            cases k with
                            | zero =>
                                simp only [List.take_zero, getNested] at hw
                                exact absurd hw (by simp)
                            | succ j =>
                                have : setNestedParts (JObj.node g) (q :: rest') v =
                                    Except.error PathErr.typeError := by
                                  apply ihg.1.mpr
                                  refine ⟨j + 1, by omega, ?_, w, hw⟩
                                  simp only [List.length_cons] at h2 ⊢
                                  omega
                                rw [hS] at this
                                exact absurd this (by simp)
                    · intro o' hok
                      simp only [setNestedParts, hfg, hS, Except.ok.injEq] at hok
                      subst hok
                      rw [getNested_cons]
                      simp only [lookupKV_setKV_self]
                      exact ihg.2 sub hS

/-- Witness for C8: storing under a path whose first segment already holds a
primitive fails, obtained through the specification theorem. -/
theorem setNested_spec_witness :
    setNestedParts (JObj.node [("a", JObj.leaf (JVal.num 1))]) ["a", "b"] (JVal.num 2) =
      Except.error PathErr.typeError :=
  (setNested_spec [("a", JObj.leaf (JVal.num 1))] ["a", "b"] (JVal.num 2) (by simp)).1.mpr
    ⟨1, le_refl 1, by decide, JVal.num 1, rfl⟩

/-! ### C9 — unmapped sections under a registered dialect -/

theorem setNested_topGet_ne (o : JObj) (ps : List String) (v : JVal) (o' : JObj)
    (k : String) (hset : setNestedParts o ps v = Except.ok o')
    (hk : ps.head? ≠ some k) : topGet o' k = topGet o k := by
  cases o with
  | leaf w =>
      cases ps with
      | nil => simp [setNestedParts] at hset
      | cons p rest =>
          cases rest <;> simp [setNestedParts] at hset
  | node fs =>
      cases ps with
      | nil => simp [setNestedParts] at hset
      | cons p rest =>
          have hpk : p ≠ k := fun e => hk (by simp [e])
          cases rest with
          | nil =>
              simp only [setNestedParts, Except.ok.injEq] at hset
              subst hset
              simp only [topGet]
              exact lookupKV_setKV_ne fs p k (JObj.leaf v) (Ne.symm hpk)
          | cons q rest' =>
              rcases hfg : lookupKV fs p with - | o
              · cases hS : setNestedParts (JObj.node []) (q :: rest') v with
                | error e => simp [setNestedParts, hfg, hS] at hset
                | ok sub =>
                    simp only [setNestedParts, hfg, hS, Except.ok.injEq] at hset
                    subst hset
                    simp only [topGet]
                    exact lookupKV_setKV_ne fs p k sub (Ne.symm hpk)
              · cases o with
                | leaf w => simp [setNestedParts, hfg] at hset
                | node g =>
                    cases hS : setNestedParts (JObj.node g) (q :: rest') v with
                    | error e => simp [setNestedParts, hfg, hS] at hset
                    | ok sub =>
                        simp only [setNestedParts, hfg, hS, Except.ok.injEq] at hset
                        subst hset
                        simp only [topGet]
                        exact lookupKV_setKV_ne fs p k sub (Ne.symm hpk)

theorem applyFields_topGet (m : CarMappingConfig) (rawSection : List (String × RVal))
    (k : String) :
    ∀ (flds : List (String × String)) (r r' : JObj),
      applyFields m rawSection flds r = Except.ok r' →
      (∀ fld ∈ flds, (pathParts fld.1).head? ≠ some k) →
      topGet r' k = topGet r k := by
  intro flds
  induction flds with
  | nil =>
      intro r r' hok _
      simp only [applyFields, Except.ok.injEq] at hok
      subst hok
      rfl
  | cons fld rest ihf =>
      intro r r' hok hc
      obtain ⟨tf, sf⟩ := fld
      rcases hlf : lookupKV rawSection sf with - | rv
      · simp only [applyFields, hlf] at hok
        exact ihf r r' hok (fun f hf => hc f (List.mem_cons_of_mem _ hf))
      · cases hset : setNestedParts r (pathParts tf) (mappedValue m tf rv) with
        | error e => simp [applyFields, hlf, hset] at hok
        | ok r2 =>
            simp only [applyFields, hlf, hset] at hok
            have hhd := hc (tf, sf) (List.mem_cons_self _ _)
            rw [ihf r2 r' hok (fun f hf => hc f (List.mem_cons_of_mem _ hf))]
            exact setNested_topGet_ne r (pathParts tf) (mappedValue m tf rv) r2 k hset hhd

theorem applySections_topGet (m : CarMappingConfig) (raw : SetupFile) (k : String) :
    ∀ (secs : List (String × List (String × String))) (r r' : JObj),
      applySections m raw secs r = Except.ok r' →
      (∀ sec ∈ secs, ∀ fld ∈ sec.2, (pathParts fld.1).head? ≠ some k) →
      topGet r' k = topGet r k := by
  intro secs
  induction secs with
  | nil =>
      intro r r' hok _
      simp only [applySections, Except.ok.injEq] at hok
      subst hok
      rfl
  | cons sec rest ihs =>
      intro r r' hok hc
      obtain ⟨secName, secMap⟩ := sec
      rcases hsg : secGet raw secName with - | rawSection
      · simp only [applySections, hsg] at hok
        exact ihs r r' hok (fun s hs => hc s (List.mem_cons_of_mem _ hs))
      · cases happ : applyFields m rawSection secMap r with
        | error e => simp [applySections, hsg, happ] at hok
        | ok r2 =>
            simp only [applySections, hsg, happ] at hok
            rw [ihs r2 r' hok (fun s hs => hc s (List.mem_cons_of_mem _ hs))]
            exact applyFields_topGet m rawSection k secMap r r2 happ
              (fun f hf => hc (secName, secMap) (List.mem_cons_self _ _) f hf)

theorem topGet_toJObj_addSettings (s : ParsedSetup) :
    topGet (toJObj s) "additionalSettings" = s.additionalSettings.map sectionsToJ := by
  obtain ⟨cid, tid, nm, desc, su, da, ti, ae, df, bb, gr, ad, md⟩ := s
  cases md <;> cases df <;> cases gr <;> cases ad <;> cases desc <;> rfl

/-- Drop every raw section whose name is not in `names`. -/
def restrictSections (raw : SetupFile) (names : List String) : SetupFile :=
  ⟨raw.header, raw.sections.filter (fun p => decide (p.1 ∈ names))⟩

theorem secGet_restrict (raw : SetupFile) (names : List String) (n : String)
    (hn : n ∈ names) : secGet (restrictSections raw names) n = secGet raw n := by
  simp only [secGet, restrictSections]
  exact lookupKV_filter raw.sections (fun x => decide (x ∈ names)) n (decide_eq_true hn)

theorem applySections_restrict (m : CarMappingConfig) (raw : SetupFile)
    (names : List String) :
    ∀ (secs : List (String × List (String × String))) (r : JObj),
      (∀ sec ∈ secs, sec.1 ∈ names) →
      applySections m (restrictSections raw names) secs r = applySections m raw secs r := by
  intro secs
  induction secs with
  | nil => intro r _; rfl
  | cons sec rest ihs =>
      intro r hc
      obtain ⟨n, fm⟩ := sec
      have tail : ∀ sec ∈ rest, sec.1 ∈ names := fun s hs => hc s (List.mem_cons_of_mem _ hs)
      have hsg := secGet_restrict raw names n (hc (n, fm) (List.mem_cons_self _ _))
      rcases hsec : secGet raw n with - | rawSection
      · simp only [applySections, hsg, hsec]
        exact ihs r tail
      · simp only [applySections, hsg, hsec]
        cases happ : applyFields m rawSection fm r with
        | error e => simp only [happ]
        | ok r2 =>
            simp only [happ]
            exact ihs r2 tail

theorem map_fst_if_set (l : List (String × List (String × JObj))) (n k : String) (v : JObj) :
    (l.map (fun p => if p.1 = n then (p.1, setKV p.2 k v) else p)).map Prod.fst =
      l.map Prod.fst := by
  induction l with
  | nil => rfl
  | cons hd tl ihs => by_cases hh : hd.1 = n <;> simp [hh, ihs]

theorem outSetField_keys (out : RawOut) (n k : String) (v : JObj) :
    (outSetField out n k v).sections.map Prod.fst = out.sections.map Prod.fst := by
  simp only [outSetField]
  exact map_fst_if_set out.sections n k v

theorem revFields_keys (m : CarMappingConfig) (secName : String) (setup : JObj) :
    ∀ (flds : List (String × String)) (out : RawOut),
      (revFields m secName setup flds out).sections.map Prod.fst =
        out.sections.map Prod.fst := by
  intro flds
  induction flds with
  | nil => intro out; rfl
  | cons fld rest ihf =>
      intro out
      obtain ⟨tf, sf⟩ := fld
      simp only [revFields]
      cases getNested setup (pathParts tf) with
      | none => exact ihf out
      | some sub =>
          rw [ihf]
          exact outSetField_keys out secName sf _

theorem revSections_keys (m : CarMappingConfig) (setup : JObj) :
    ∀ (secs : List (String × List (String × String))) (out : RawOut),
      (secs.map Prod.fst).Nodup →
      (∀ n ∈ secs.map Prod.fst, lookupKV out.sections n = none) →
      (revSections m setup secs out).sections.map Prod.fst =
        out.sections.map Prod.fst ++ secs.map Prod.fst := by
  intro secs
  induction secs with
  | nil => intro out _ _; simp [revSections]
  | cons sec rest ihs =>
      intro out hnd hout
      obtain ⟨n, fm⟩ := sec
      rw [List.map_cons] at hnd hout ⊢
      obtain ⟨hnmem, hnd'⟩ := List.nodup_cons.mp hnd
      have hn : lookupKV out.sections n = none := hout n (List.mem_cons_self _ _)
      have keys1 : (revFields m n setup fm (outEnsure out n)).sections.map Prod.fst =
          out.sections.map Prod.fst ++ [n] := by
        rw [revFields_keys]
        simp [outEnsure, hn]
      have hrest : ∀ n' ∈ rest.map Prod.fst,
          lookupKV (revFields m n setup fm (outEnsure out n)).sections n' = none := by
        intro n' hn'
        rw [lookupKV_eq_none_iff, keys1]
        simp only [List.mem_append, List.mem_singleton]
        push_neg
        refine ⟨?_, ?_⟩
        · rw [← lookupKV_eq_none_iff]
          exact hout n' (List.mem_cons_of_mem _ hn')
        · intro e
          exact hnmem (e ▸ hn')
      have hmain := ihs (revFields m n setup fm (outEnsure out n)) hnd' hrest
      simp only [revSections]
      rw [hmain, keys1]
      simp

theorem lookupCar_default (id : RVal) (m : CarMappingConfig)
    (h : lookupCar defaultParser id = some m) :
    m = ferrari488GT3Mapping ∨ m = porsche911GT3RMapping := by
  cases id with
  | str s =>
      have hd : defaultParser =
          [("ferrari_488_gt3", ferrari488GT3Mapping),
           ("porsche_911_gt3r", porsche911GT3RMapping)] := rfl
      simp only [lookupCar, hd, lookupKV] at h
      by_cases hf : ferrari488GT3Mapping.carId = s
      · rw [if_pos hf] at h
        exact Or.inl (Option.some.inj h).symm
      · rw [if_neg hf] at h
        by_cases hp : porsche911GT3RMapping.carId = s
        · rw [if_pos hp] at h
          exact Or.inr (Option.some.inj h).symm
        · rw [if_neg hp] at h
          exact absurd h (by simp)
  | num q => simp [lookupCar] at h
  | boolV b => simp [lookupCar] at h
  | nullV => simp [lookupCar] at h

/-- C9: when the input's vehicle identifier has a registered dialect, the
decode ignores every raw section whose name is not in that dialect's
field-mapping table (decoding the table with those sections removed yields
the same record), leaves the record's `additionalSettings` property absent,
and the reverse (encode) mapping emits exactly the header `SETUPS` section
plus the dialect's own sections — so unmapped sections are not reproduced;
only the generic fallback path populates `additionalSettings`. -/
theorem dialect_decode_ignores_unmapped (raw : SetupFile) (now : String)
    (m : CarMappingConfig) (r : JObj)
    (h1 : lookupCar defaultParser raw.header.carIdentifier = some m)
    (h2 : convertToStructured defaultParser now raw = Except.ok r) :
    topGet r "additionalSettings" = none ∧
    convertToStructured defaultParser now
        (restrictSections raw (m.fieldMappings.map Prod.fst)) = Except.ok r ∧
    (applyCarMappingReverse r (initRawOut now r) m).sections.map Prod.fst =
      "SETUPS" :: m.fieldMappings.map Prod.fst ∧
    (∀ (raw2 : SetupFile) (now2 : String) (r2 : JObj),
        lookupCar defaultParser raw2.header.carIdentifier = none →
        convertToStructured defaultParser now2 raw2 = Except.ok r2 →
        (topGet r2 "additionalSettings").isSome = true) := by
  have hm := lookupCar_default _ _ h1
  simp only [convertToStructured, h1] at h2
  refine ⟨?_, ?_, ?_, ?_⟩
  · have hcond : ∀ sec ∈ m.fieldMappings, ∀ fld ∈ sec.2,
        (pathParts fld.1).head? ≠ some "additionalSettings" := by
      rcases hm with rfl | rfl <;> decide
    have hpres := applySections_topGet m raw "additionalSettings" m.fieldMappings
      (toJObj (initialSetup raw.header now)) r h2 hcond
    rw [hpres, topGet_toJObj_addSettings]
    rfl
  · have hh : (restrictSections raw (m.fieldMappings.map Prod.fst)).header = raw.header := rfl
    simp only [convertToStructured, hh, h1, applyCarMapping]
    rw [applySections_restrict m raw (m.fieldMappings.map Prod.fst) m.fieldMappings
      (toJObj (initialSetup raw.header now)) (fun s hs => List.mem_map_of_mem _ hs)]
    exact h2
  · have hnd : (m.fieldMappings.map Prod.fst).Nodup := by
      rcases hm with rfl | rfl <;> decide
    have hout : ∀ n ∈ m.fieldMappings.map Prod.fst,
        lookupKV (initRawOut now r).sections n = none := by
      rcases hm with rfl | rfl <;>
        · intro n hn
          fin_cases hn <;> rfl
    have hkeys := revSections_keys m r m.fieldMappings (initRawOut now r) hnd hout
    simp only [applyCarMappingReverse]
    rw [hkeys]
    rfl
  · intro raw2 now2 r2 hnone hok
    simp only [convertToStructured, hnone, Except.ok.injEq] at hok
    subst hok
    rw [topGet_toJObj_addSettings]
    simp [applyGenericMapping]

/-- Raw table with the Ferrari identifier and one section the dialect does
not map. -/
def rawC9 : SetupFile := ⟨hdrFer, [("EXTRA", [("K", RVal.num 1)])]⟩

/-- Witness for C9 at a Ferrari table whose only section is unmapped. -/
theorem dialect_decode_ignores_unmapped_witness :
    topGet (toJObj (initialSetup hdrFer "T")) "additionalSettings" = none ∧
    convertToStructured defaultParser "T"
        (restrictSections rawC9 (ferrari488GT3Mapping.fieldMappings.map Prod.fst)) =
      Except.ok (toJObj (initialSetup hdrFer "T")) ∧
    (applyCarMappingReverse (toJObj (initialSetup hdrFer "T"))
        (initRawOut "T" (toJObj (initialSetup hdrFer "T")))
        ferrari488GT3Mapping).sections.map Prod.fst =
      "SETUPS" :: ferrari488GT3Mapping.fieldMappings.map Prod.fst ∧
    (∀ (raw2 : SetupFile) (now2 : String) (r2 : JObj),
        lookupCar defaultParser raw2.header.carIdentifier = none →
        convertToStructured defaultParser now2 raw2 = Except.ok r2 →
        (topGet r2 "additionalSettings").isSome = true) :=
  dialect_decode_ignores_unmapped rawC9 "T" ferrari488GT3Mapping
    (toJObj (initialSetup hdrFer "T")) rfl rfl
